import Mathlib

/-!
# libpcap internal interfaces (`pcap-int.h`): a verification development

A shallow embedding of the macros, record layouts and internal routines
declared in `pcap-int.h`, with theorems about them.

Machine integers are modelled as `Nat` / `Int`; a C truth value is a `Bool`.
-/

namespace Pcap

/-! ## Macros of `pcap-int.h` -/

/-- Macro `SWAPLL(ull)`: swap the byte ordering of an `unsigned long long`.
Each line is one line of the macro; a left shift of an `unsigned long long`
is taken modulo `2 ^ 64`. -/
def SWAPLL (ull : Nat) : Nat :=
  ((ull &&& 0xff00000000000000) >>> 56) |||
  ((ull &&& 0x00ff000000000000) >>> 40) |||
  ((ull &&& 0x0000ff0000000000) >>> 24) |||
  ((ull &&& 0x000000ff00000000) >>> 8) |||
  (((ull &&& 0x00000000ff000000) <<< 8) % 2 ^ 64) |||
  (((ull &&& 0x0000000000ff0000) <<< 24) % 2 ^ 64) |||
  (((ull &&& 0x000000000000ff00) <<< 40) % 2 ^ 64) |||
  (((ull &&& 0x00000000000000ff) <<< 56) % 2 ^ 64)

/-- Macro `MAXIMUM_SNAPLEN`, in the two build configurations of the header:
`0x80000` when `__APPLE__` is defined, `262144` otherwise. -/
def MAXIMUM_SNAPLEN (apple : Bool) : Nat :=
  if apple then 0x80000 else 262144

/-- Macro `PCAP_ISDIGIT(c)`: `((c) >= '0' && (c) <= '9')`, for any integral `c`. -/
def PCAP_ISDIGIT (c : Int) : Bool :=
  decide (c ≥ ('0'.toNat : Int)) && decide (c ≤ ('9'.toNat : Int))

/-- Macro `PCAP_ISXDIGIT(c)`: the three ranges of the macro, for any integral `c`. -/
def PCAP_ISXDIGIT (c : Int) : Bool :=
  (decide (c ≥ ('0'.toNat : Int)) && decide (c ≤ ('9'.toNat : Int))) ||
  (decide (c ≥ ('A'.toNat : Int)) && decide (c ≤ ('F'.toNat : Int))) ||
  (decide (c ≥ ('a'.toNat : Int)) && decide (c ≤ ('f'.toNat : Int)))

/-- Macro `min(a, b)`: `((a) > (b) ? (b) : (a))`, for two values of one integer
type, signed or unsigned. -/
def min (a b : Int) : Int :=
  if a > b then b else a

/-- Macro `PACKET_COUNT_IS_UNLIMITED(count)`: `((count) <= 0)`, for the `int cnt`
argument of a module's read routine (`read_op_t`). -/
def PACKET_COUNT_IS_UNLIMITED (count : Int) : Bool :=
  decide (count ≤ 0)

/-- Smallest value of a C `int` (32 bits). -/
def INT_MIN : Int := -(2 ^ 31)

/-- Largest value of a C `int` (32 bits). -/
def INT_MAX : Int := 2 ^ 31 - 1

/-- Byte `i` of `x`, counted from the least significant byte. -/
def byteAt (x i : Nat) : Nat :=
  (x >>> (8 * i)) &&& 0xff

/-- The first seven operands of the expansion of `SWAPLL(ull)`, joined by `|`
as the macro joins them. -/
def SWAPLL_head (ull : Nat) : Nat :=
  ((ull &&& 0xff00000000000000) >>> 56) |||
  ((ull &&& 0x00ff000000000000) >>> 40) |||
  ((ull &&& 0x0000ff0000000000) >>> 24) |||
  ((ull &&& 0x000000ff00000000) >>> 8) |||
  (((ull &&& 0x00000000ff000000) <<< 8) % 2 ^ 64) |||
  (((ull &&& 0x0000000000ff0000) <<< 24) % 2 ^ 64) |||
  (((ull &&& 0x000000000000ff00) <<< 40) % 2 ^ 64)

/-- The last operand of the expansion of `SWAPLL(ull)`. -/
def SWAPLL_last (ull : Nat) : Nat :=
  ((ull &&& 0x00000000000000ff) <<< 56) % 2 ^ 64

/-- The expression `SWAPLL(SWAPLL(x))` as the preprocessor and the compiler
read it. The macro puts parentheses neither around its parameter `ull` nor
around its expansion, so the argument of the outer call is the text
`t1 | ... | t7 | t8` of the inner expansion, and each `ull & mask` of the outer
body is the text `t1 | ... | t7 | t8 & mask`. In C `&` binds tighter than `|`,
so that is `(t1 | ... | t7) | (t8 & mask)`: the mask reaches the last operand
only. Here `t1 | ... | t7` is `SWAPLL_head x` and `t8` is `SWAPLL_last x`. -/
def SWAPLL_SWAPLL (x : Nat) : Nat :=
  ((SWAPLL_head x ||| (SWAPLL_last x &&& 0xff00000000000000)) >>> 56) |||
  ((SWAPLL_head x ||| (SWAPLL_last x &&& 0x00ff000000000000)) >>> 40) |||
  ((SWAPLL_head x ||| (SWAPLL_last x &&& 0x0000ff0000000000)) >>> 24) |||
  ((SWAPLL_head x ||| (SWAPLL_last x &&& 0x000000ff00000000)) >>> 8) |||
  (((SWAPLL_head x ||| (SWAPLL_last x &&& 0x00000000ff000000)) <<< 8) % 2 ^ 64) |||
  (((SWAPLL_head x ||| (SWAPLL_last x &&& 0x0000000000ff0000)) <<< 24) % 2 ^ 64) |||
  (((SWAPLL_head x ||| (SWAPLL_last x &&& 0x000000000000ff00)) <<< 40) % 2 ^ 64) |||
  (((SWAPLL_head x ||| (SWAPLL_last x &&& 0x00000000000000ff)) <<< 56) % 2 ^ 64)

/-! ## Filter engine -/

/-- Modelled from the spec: an instruction of a filter program
(`struct bpf_insn`, declared outside the sources): "each instruction is
`(opcode, jump-if-true, jump-if-false, immediate)`", on the wire a 2-byte
opcode, two 1-byte jump fields and a 4-byte immediate. -/
structure bpf_insn where
  code : Nat
  jt : Nat
  jf : Nat
  k : Nat
deriving DecidableEq, Repr

/-- Modelled from the spec: the kinds of instruction that the filter engine
tells apart: the terminal (return) instruction, the jump-type instructions,
the load-type instructions that read `width` packet bytes, the instructions
that reference a scratch-memory slot, and all the others. -/
inductive insn_kind where
  | ret
  | jmp
  | ld (width : Nat)
  | mem
  | other
deriving DecidableEq, Repr

/-- Modelled from the spec: what the engine needs to know about the
instruction set, whose numbering (`pcap/bpf.h`) is not among the sources.
`kind` decodes an opcode; `target i j` is the instruction index that a jump
field `j` of the instruction at index `i` designates (the spec speaks of
targets as instruction indices and leaves their encoding open); `maxlen` is
"the maximum packet length the engine may ever see"; `memwords` is "the fixed
scratch-memory size". -/
structure filter_isa where
  kind : Nat → insn_kind
  target : Nat → Nat → Nat
  maxlen : Nat
  memwords : Nat

/-- Modelled from the spec: the check that validation makes on the instruction
`p` at index `i` of a program of `len` instructions. A jump-type instruction
must have both targets strictly greater than `i` and strictly less than `len`;
a packet load must have offset plus width within the maximum packet length; a
scratch-memory reference must be within the scratch memory. -/
def insn_valid (E : filter_isa) (len i : Nat) (p : bpf_insn) : Bool :=
  match E.kind p.code with
  | .jmp =>
      decide (i < E.target i p.jt) && decide (E.target i p.jt < len) &&
      decide (i < E.target i p.jf) && decide (E.target i p.jf < len)
  | .ld width => decide (p.k + width ≤ E.maxlen)
  | .mem => decide (p.k < E.memwords)
  | .ret => true
  | .other => true

/-- Modelled from the spec: the per-instruction checks over the instructions
`f`, the first of which is at index `i`, of a program of `len` instructions. -/
def validate_from (E : filter_isa) (len : Nat) : Nat → List bpf_insn → Bool
  | _, [] => true
  | i, p :: f => insn_valid E len i p && validate_from E len (i + 1) f

/-- Modelled from the spec: whether the last instruction of the program is a
terminal (return) instruction; an empty program has none. -/
def ends_with_ret (E : filter_isa) (f : List bpf_insn) : Bool :=
  match f.getLast? with
  | some p => decide (E.kind p.code = insn_kind.ret)
  | none => false

/-- Modelled from the spec: `pcap_validate_filter` is only declared in
`pcap-int.h` ("Routine to validate a BPF program"); its body is not among the
sources. The program and its length are the list `f` and its length. The
result is `1` for a valid program and `0` for a malformed one: "the program is
non-empty and its last instruction is a terminal (return) instruction", and
every instruction passes `insn_valid`. -/
def pcap_validate_filter (E : filter_isa) (f : List bpf_insn) : Int :=
  if f.length < 1 then 0
  else if validate_from E f.length 0 f && ends_with_ret E f then 1
  else 0

/-- Auxiliary data for the interpreter (`struct pcap_bpf_aux_data`): VLAN tag
information. -/
structure pcap_bpf_aux_data where
  vlan_tag_present : Nat
  vlan_tag : Nat
deriving DecidableEq, Repr

/-- Modelled from the spec: the packet input of one execution: the packet
buffer `p`, the length on the wire, the captured length, and the auxiliary
data, absent for the variant of execution that has none. -/
structure filter_input where
  p : List Nat
  wirelen : Nat
  buflen : Nat
  aux_data : Option pcap_bpf_aux_data

/-- Modelled from the spec: the semantics of the instructions other than the
terminal one, which the spec does not enumerate, over a machine state `σ`
(registers and scratch memory). `init` is the state in which execution starts;
`cond` decides a jump-type instruction; `exec` performs any other instruction
and yields `none` when the instruction would access the packet outside the
safe region of the interpreter. -/
structure filter_sem (σ : Type) where
  init : σ
  cond : bpf_insn → filter_input → σ → Bool
  exec : bpf_insn → filter_input → σ → Option σ

/-- Modelled from the spec: the interpreter loop, from the instruction at
index `pc` in state `s`, for at most `fuel` instructions. The terminal
instruction ends the run, and its immediate value "is the number of bytes of
the packet to report to the caller; `0` means reject". A
jump-type instruction passes control to its true or false target; any other
instruction passes control to the next one, and a forbidden packet access
rejects the packet. `none` means that no result was reached: the fuel ran out
or control left the program. -/
def filter_run {σ : Type} (E : filter_isa) (S : filter_sem σ) (prog : List bpf_insn)
    (inp : filter_input) : Nat → Nat → σ → Option Nat
  | 0, _, _ => none
  | fuel + 1, pc, s =>
    match prog.get? pc with
    | none => none
    | some insn =>
      match E.kind insn.code with
      | .ret => some insn.k
      | .jmp =>
          if S.cond insn inp s then filter_run E S prog inp fuel (E.target pc insn.jt) s
          else filter_run E S prog inp fuel (E.target pc insn.jf) s
      | _ =>
          match S.exec insn inp s with
          | some s1 => filter_run E S prog inp fuel (pc + 1) s1
          | none => some 0

/-- Modelled from the spec: `pcap_filter_with_aux_data` is only declared in
`pcap-int.h` ("Filtering routine that takes the auxiliary data as an additional
argument"). It runs the program `pc` from its first instruction on the packet
`p` with its wire length, captured length and auxiliary data. -/
def pcap_filter_with_aux_data {σ : Type} (E : filter_isa) (S : filter_sem σ) (fuel : Nat)
    (pc : List bpf_insn) (p : List Nat) (wirelen buflen : Nat)
    (aux_data : pcap_bpf_aux_data) : Option Nat :=
  filter_run E S pc ⟨p, wirelen, buflen, some aux_data⟩ fuel 0 S.init

/-- Modelled from the spec: `pcap_filter` is only declared in `pcap-int.h`
(the filtering routine that takes no auxiliary data). -/
def pcap_filter {σ : Type} (E : filter_isa) (S : filter_sem σ) (fuel : Nat)
    (pc : List bpf_insn) (p : List Nat) (wirelen buflen : Nat) : Option Nat :=
  filter_run E S pc ⟨p, wirelen, buflen, none⟩ fuel 0 S.init

/-! ## Capture handle -/

/-- An instruction set for the examples: opcode `6` is the terminal
instruction, opcode `5` a jump whose fields are offsets from the next
instruction, opcode `0` a one-byte packet load, opcode `2` a scratch-memory
store. -/
def example_isa : filter_isa where
  kind := fun c =>
    if c = 6 then insn_kind.ret
    else if c = 5 then insn_kind.jmp
    else if c = 0 then insn_kind.ld 1
    else if c = 2 then insn_kind.mem
    else insn_kind.other
  target := fun i j => i + 1 + j
  maxlen := 65535
  memwords := 16

/-- A semantics for the examples, over a single accumulator: a jump is taken
when the accumulator equals the immediate, and every other instruction loads
the packet byte at its immediate offset, within the captured length. -/
def example_sem : filter_sem Nat where
  init := 0
  cond := fun insn _ a => decide (a = insn.k)
  exec := fun insn inp _ =>
    if insn.k < Nat.min inp.buflen inp.wirelen then inp.p.get? insn.k else none

/-- The bits of the byte mask `0xff` are the eight lowest ones. -/
theorem testBit_255 (j : Nat) : Nat.testBit 255 j = decide (j < 8) := by
  have h := Nat.testBit_two_pow_sub_one 8 j
  simpa using h

/-- The seven other masks of `SWAPLL` are the byte mask `0xff`, shifted. -/
theorem mask_byte7 : (0xff00000000000000 : Nat) = 255 <<< 56 := by decide
theorem mask_byte6 : (0x00ff000000000000 : Nat) = 255 <<< 48 := by decide
theorem mask_byte5 : (0x0000ff0000000000 : Nat) = 255 <<< 40 := by decide
theorem mask_byte4 : (0x000000ff00000000 : Nat) = 255 <<< 32 := by decide
theorem mask_byte3 : (0x00000000ff000000 : Nat) = 255 <<< 24 := by decide
theorem mask_byte2 : (0x0000000000ff0000 : Nat) = 255 <<< 16 := by decide
theorem mask_byte1 : (0x000000000000ff00 : Nat) = 255 <<< 8 := by decide

/-- Bit `j` of `SWAPLL x` is bit `j % 8` of byte `7 - j / 8` of `x`, and
there is no bit at position 64 or above. -/
theorem SWAPLL_testBit (x j : Nat) :
    (SWAPLL x).testBit j = (decide (j < 64) && x.testBit (8 * (7 - j / 8) + j % 8)) := by
  unfold SWAPLL
  rw [mask_byte7, mask_byte6, mask_byte5, mask_byte4, mask_byte3, mask_byte2, mask_byte1]
  simp only [Nat.testBit_or, Nat.testBit_and, Nat.testBit_shiftRight, Nat.testBit_shiftLeft,
    Nat.testBit_mod_two_pow, testBit_255]
  rcases Nat.lt_or_ge j 64 with h | h
  · interval_cases j <;> simp
  · have e : decide (j < 64) = false := decide_eq_false (by omega)
    have e1 : decide (56 + j - 56 < 8) = false := decide_eq_false (by omega)
    have e2 : decide (40 + j - 48 < 8) = false := decide_eq_false (by omega)
    have e3 : decide (24 + j - 40 < 8) = false := decide_eq_false (by omega)
    have e4 : decide (8 + j - 32 < 8) = false := decide_eq_false (by omega)
    simp only [e, e1, e2, e3, e4, Bool.false_and, Bool.and_false, Bool.or_false]

/-- The value of `SWAPLL` is a 64-bit value. -/
theorem SWAPLL_lt (x : Nat) : SWAPLL x < 2 ^ 64 := by
  apply Nat.lt_pow_two_of_testBit
  intro j hj
  rw [SWAPLL_testBit]
  have e : decide (j < 64) = false := decide_eq_false (by omega)
  simp [e]

/-- Bit `j` of byte `i` of `x` is bit `8 * i + j` of `x`, for `j < 8`. -/
theorem byteAt_testBit (x i j : Nat) :
    (byteAt x i).testBit j = (x.testBit (8 * i + j) && decide (j < 8)) := by
  unfold byteAt
  rw [Nat.testBit_and, Nat.testBit_shiftRight, testBit_255]

/-! ### The claims -/

/-- C1: `PACKET_COUNT_IS_UNLIMITED(N)` is true exactly for the non-positive
counts `N <= 0` (zero and every negative value, `INT_MIN` included), and it is
false exactly for the counts `N >= 1`, which are finite limits. -/
theorem packet_count_is_unlimited_iff (N : Int) :
    (PACKET_COUNT_IS_UNLIMITED N = true ↔ N ≤ 0) ∧
    (PACKET_COUNT_IS_UNLIMITED N = false ↔ 1 ≤ N) ∧
    PACKET_COUNT_IS_UNLIMITED 0 = true ∧
    PACKET_COUNT_IS_UNLIMITED INT_MIN = true ∧
    PACKET_COUNT_IS_UNLIMITED 1 = false := by
  refine ⟨?_, ?_, ?_, ?_, ?_⟩
  · simp [PACKET_COUNT_IS_UNLIMITED]
  · simp only [PACKET_COUNT_IS_UNLIMITED, decide_eq_false_iff_not]
    omega
  · decide
  · decide
  · decide

/-- C9: in both build configurations `MAXIMUM_SNAPLEN` is at least 65549
(maximum-size Linux loopback packets), at least 262144 (above every documented
USBPcap packet size) and strictly less than `2^31 - 1`, so it fits in the
signed 32-bit `snapshot` field of the handle. -/
theorem maximum_snaplen_bounds (apple : Bool) :
    65549 ≤ MAXIMUM_SNAPLEN apple ∧
    262144 ≤ MAXIMUM_SNAPLEN apple ∧
    MAXIMUM_SNAPLEN apple < 2 ^ 31 - 1 ∧
    (MAXIMUM_SNAPLEN apple : Int) ≤ INT_MAX ∧
    MAXIMUM_SNAPLEN true = 0x80000 ∧
    MAXIMUM_SNAPLEN false = 262144 := by
  cases apple <;> decide

/-- C10: for every integer `c`, `PCAP_ISDIGIT(c)` is true if and only if
`48 <= c <= 57`, the codes of the ASCII characters `0` to `9`; it is false for
every other integer, negative values and values above 255 included. -/
theorem pcap_isdigit_iff (c : Int) :
    (PCAP_ISDIGIT c = true ↔ 48 ≤ c ∧ c ≤ 57) ∧
    (PCAP_ISDIGIT c = false ↔ c < 48 ∨ 57 < c) := by
  have h0 : (('0'.toNat : Nat) : Int) = 48 := by decide
  have h9 : (('9'.toNat : Nat) : Int) = 57 := by decide
  constructor
  · simp only [PCAP_ISDIGIT, h0, h9, Bool.and_eq_true, decide_eq_true_eq, ge_iff_le]
  · rw [← Bool.not_eq_true]
    simp only [PCAP_ISDIGIT, h0, h9, Bool.and_eq_true, decide_eq_true_eq]
    omega

/-- C8: `SWAPLL(x)` is the full byte reversal of `x`: for each `i` in `0..7`,
byte `i` (from the least significant) of `SWAPLL(x)` is byte `7 - i` of `x`.
No bit is lost or duplicated: the result is again a 64-bit value, and its bit
`j`, for `j < 64`, is the bit `j % 8` of byte `7 - j / 8` of `x`. -/
theorem SWAPLL_byte_reversal (x i : Nat) (hi : i < 8) :
    byteAt (SWAPLL x) i = byteAt x (7 - i) ∧ SWAPLL x < 2 ^ 64 ∧
    (∀ j, (SWAPLL x).testBit j
      = (decide (j < 64) && x.testBit (8 * (7 - j / 8) + j % 8))) := by
  refine ⟨?_, SWAPLL_lt x, SWAPLL_testBit x⟩
  apply Nat.eq_of_testBit_eq
  intro j
  rw [byteAt_testBit, byteAt_testBit, SWAPLL_testBit]
  rcases Nat.lt_or_ge j 8 with h | h
  · have e1 : (8 * i + j) / 8 = i := by omega
    have e2 : (8 * i + j) % 8 = j := by omega
    have e3 : decide (8 * i + j < 64) = true := decide_eq_true (by omega)
    rw [e1, e2, e3]
    simp
  · have e : decide (j < 8) = false := decide_eq_false (by omega)
    simp [e]

/-- Witness for C8 at `x = 0x0102030405060708`, `i = 2`: byte 2 of the swapped
value is byte 5 of `x`, which is `0x03`. -/
theorem SWAPLL_byte_reversal_witness :
    (2 : Nat) < 8 ∧ SWAPLL 0x0102030405060708 = 0x0807060504030201 ∧
    byteAt 0x0102030405060708 5 = 3 ∧
    byteAt (SWAPLL 0x0102030405060708) 2 = byteAt 0x0102030405060708 (7 - 2) ∧
    SWAPLL 0x0102030405060708 < 2 ^ 64 :=
  ⟨by decide, by decide, by decide,
    (SWAPLL_byte_reversal 0x0102030405060708 2 (by decide)).1,
    (SWAPLL_byte_reversal 0x0102030405060708 2 (by decide)).2.1⟩

/-! ### Validation of jumps -/

/-- One instruction that fails its check makes the whole scan fail. -/
theorem validate_from_get_invalid (E : filter_isa) (len : Nat) :
    ∀ (f : List bpf_insn) (start i : Nat) (p : bpf_insn), f.get? i = some p →
      insn_valid E len (start + i) p = false → validate_from E len start f = false := by
  intro f
  induction f with
  | nil => intro start i p h; simp at h
  | cons q f ih =>
    intro start i p h hbad
    cases i with
    | zero =>
      simp only [List.get?_cons_zero, Option.some.injEq] at h
      subst h
      simp only [Nat.add_zero] at hbad
      simp [validate_from, hbad]
    | succ i =>
      simp only [List.get?_cons_succ] at h
      have hbad2 : insn_valid E len (start + 1 + i) p = false := by
        have e : start + 1 + i = start + (i + 1) := by omega
        rw [e]; exact hbad
      simp [validate_from, ih (start + 1) i p h hbad2]

/-- C5: if the instruction at index `i` of a program of length `n` is a
jump-type instruction and its jump-if-true or jump-if-false target is an index
`>= n` or `<= i` (a backward or self jump), then `pcap_validate_filter`
reports the program as malformed: it returns `0`. -/
theorem pcap_validate_filter_rejects_bad_jump (E : filter_isa) (f : List bpf_insn)
    (i : Nat) (p : bpf_insn) (hp : f.get? i = some p)
    (hj : E.kind p.code = insn_kind.jmp)
    (hbad : E.target i p.jt ≥ f.length ∨ E.target i p.jt ≤ i ∨
      E.target i p.jf ≥ f.length ∨ E.target i p.jf ≤ i) :
    pcap_validate_filter E f = 0 := by
  have hinv : insn_valid E f.length (0 + i) p = false := by
    simp only [insn_valid, hj, Nat.zero_add]
    rw [← Bool.not_eq_true]
    simp only [Bool.and_eq_true, decide_eq_true_eq]
    omega
  have hv := validate_from_get_invalid E f.length f 0 i p hp hinv
  simp [pcap_validate_filter, hv]

/-- Witness for C5: a two-instruction program whose first instruction jumps,
when false, to index 2, past the end of the program. -/
theorem pcap_validate_filter_rejects_bad_jump_witness :
    pcap_validate_filter example_isa [⟨5, 0, 1, 0⟩, ⟨6, 0, 0, 0⟩] = 0 ∧
    pcap_validate_filter example_isa [⟨5, 0, 0, 0⟩, ⟨6, 0, 0, 0⟩] = 1 :=
  ⟨pcap_validate_filter_rejects_bad_jump example_isa [⟨5, 0, 1, 0⟩, ⟨6, 0, 0, 0⟩] 0
      ⟨5, 0, 1, 0⟩ (by decide) (by decide) (by decide),
    by decide⟩

/-- C6: a program whose first instruction is a terminal return of the
constant `k` yields exactly `k`, with `pcap_filter` and with
`pcap_filter_with_aux_data`, on every packet buffer, captured length, wire
length and auxiliary data, as soon as one instruction may be executed; the
one-instruction reject program (`k = 0`) yields `0`. -/
theorem pcap_filter_ret_first {σ : Type} (E : filter_isa) (S : filter_sem σ) (fuel : Nat)
    (code jt jf k : Nat) (rest : List bpf_insn) (p : List Nat) (wirelen buflen : Nat)
    (aux_data : pcap_bpf_aux_data) (hret : E.kind code = insn_kind.ret) :
    pcap_filter E S (fuel + 1) (⟨code, jt, jf, k⟩ :: rest) p wirelen buflen = some k ∧
    pcap_filter_with_aux_data E S (fuel + 1) (⟨code, jt, jf, k⟩ :: rest) p wirelen buflen
      aux_data = some k ∧
    pcap_filter E S (fuel + 1) [⟨code, jt, jf, 0⟩] p wirelen buflen = some 0 ∧
    pcap_filter_with_aux_data E S (fuel + 1) [⟨code, jt, jf, 0⟩] p wirelen buflen
      aux_data = some 0 := by
  simp [pcap_filter, pcap_filter_with_aux_data, filter_run, hret]

/-- Witness for C6: the one-instruction programs "return 0" and "return 60" on
a four-byte packet. -/
theorem pcap_filter_ret_first_witness :
    example_isa.kind 6 = insn_kind.ret ∧
    pcap_filter example_isa example_sem 1 [⟨6, 0, 0, 60⟩] [1, 2, 3, 4] 4 4 = some 60 ∧
    pcap_filter example_isa example_sem 1 [⟨6, 0, 0, 0⟩] [1, 2, 3, 4] 4 4 = some 0 :=
  ⟨by decide,
    (pcap_filter_ret_first example_isa example_sem 0 6 0 0 60 [] [1, 2, 3, 4] 4 4
      ⟨0, 0⟩ (by decide)).1,
    (pcap_filter_ret_first example_isa example_sem 0 6 0 0 0 [] [1, 2, 3, 4] 4 4
      ⟨0, 0⟩ (by decide)).1⟩

/-- C11: for every integer `c`, `PCAP_ISXDIGIT(c)` is true if and only if `c`
is in `48..57`, `65..70` or `97..102`, the codes of the 22 ASCII hexadecimal
digits `0`-`9`, `A`-`F`, `a`-`f`; it is false for every other integer. Every
`c` accepted by `PCAP_ISDIGIT` is accepted by `PCAP_ISXDIGIT`, and `G`, `g`,
`/`, `:`, `@` and the grave accent (code 96) are rejected. -/
theorem pcap_isxdigit_iff (c : Int) :
    (PCAP_ISXDIGIT c = true ↔
      (48 ≤ c ∧ c ≤ 57) ∨ (65 ≤ c ∧ c ≤ 70) ∨ (97 ≤ c ∧ c ≤ 102)) ∧
    (PCAP_ISXDIGIT c = false ↔
      c < 48 ∨ (57 < c ∧ c < 65) ∨ (70 < c ∧ c < 97) ∨ 102 < c) ∧
    (PCAP_ISDIGIT c && !PCAP_ISXDIGIT c) = false ∧
    ((List.range 256).filter (fun n => PCAP_ISXDIGIT (n : Int))).length = 22 ∧
    PCAP_ISXDIGIT ('G'.toNat : Int) = false ∧
    PCAP_ISXDIGIT ('g'.toNat : Int) = false ∧
    PCAP_ISXDIGIT ('/'.toNat : Int) = false ∧
    PCAP_ISXDIGIT (':'.toNat : Int) = false ∧
    PCAP_ISXDIGIT ('@'.toNat : Int) = false ∧
    PCAP_ISXDIGIT 96 = false := by
  have h0 : (('0'.toNat : Nat) : Int) = 48 := by decide
  have h9 : (('9'.toNat : Nat) : Int) = 57 := by decide
  have hA : (('A'.toNat : Nat) : Int) = 65 := by decide
  have hF : (('F'.toNat : Nat) : Int) = 70 := by decide
  have ha : (('a'.toNat : Nat) : Int) = 97 := by decide
  have hf : (('f'.toNat : Nat) : Int) = 102 := by decide
  have key : PCAP_ISXDIGIT c = true ↔
      (48 ≤ c ∧ c ≤ 57) ∨ (65 ≤ c ∧ c ≤ 70) ∨ (97 ≤ c ∧ c ≤ 102) := by
    simp only [PCAP_ISXDIGIT, h0, h9, hA, hF, ha, hf, Bool.or_eq_true, Bool.and_eq_true,
      decide_eq_true_eq, ge_iff_le]
    omega
  have keyd : PCAP_ISDIGIT c = true ↔ 48 ≤ c ∧ c ≤ 57 := by
    simp only [PCAP_ISDIGIT, h0, h9, Bool.and_eq_true, decide_eq_true_eq, ge_iff_le]
  refine ⟨key, ?_, ?_, by decide, by decide, by decide, by decide, by decide, by decide,
    by decide⟩
  · rw [← Bool.not_eq_true, key]
    omega
  · rw [← Bool.not_eq_true]
    simp only [Bool.and_eq_true, Bool.not_eq_true', keyd]
    rw [← Bool.not_eq_true, key]
    omega

/-- C12: `min(a, b)` is the smaller of `a` and `b`: it is at most `a`, at most
`b`, and equal to `a` or to `b`; so a length truncated with `min` exceeds
neither bound, and any value below both bounds is below it. -/
theorem min_is_smaller (a b : Int) :
    Pcap.min a b ≤ a ∧ Pcap.min a b ≤ b ∧
    (Pcap.min a b = a ∨ Pcap.min a b = b) ∧
    (∀ c : Int, c ≤ Pcap.min a b ↔ c ≤ a ∧ c ≤ b) := by
  unfold Pcap.min
  split_ifs with h
  · refine ⟨by omega, by omega, Or.inr rfl, fun c => by omega⟩
  · refine ⟨by omega, by omega, Or.inl rfl, fun c => by omega⟩

/-- Involution of `SWAPLL` on values: when the operand is a 64-bit value, such
as the content of a variable, and the result is taken whole, swapping twice
gives the value back; so `SWAPLL` maps the 64-bit values to 64-bit values,
two of them with the same image are equal, and each is an image. -/
theorem SWAPLL_involution (x y : Nat) (hx : x < 2 ^ 64) (hy : y < 2 ^ 64) :
    SWAPLL (SWAPLL x) = x ∧ SWAPLL x < 2 ^ 64 ∧
    (SWAPLL x = SWAPLL y → x = y) ∧
    (∃ z, z < 2 ^ 64 ∧ SWAPLL z = x) := by
  have inv : ∀ u, u < 2 ^ 64 → SWAPLL (SWAPLL u) = u := by
    intro u hu
    apply Nat.eq_of_testBit_eq
    intro j
    rw [SWAPLL_testBit, SWAPLL_testBit]
    rcases Nat.lt_or_ge j 64 with h | h
    · have e1 : decide (j < 64) = true := decide_eq_true h
      have e2 : decide (8 * (7 - j / 8) + j % 8 < 64) = true := decide_eq_true (by omega)
      have e3 : 8 * (7 - (8 * (7 - j / 8) + j % 8) / 8) + (8 * (7 - j / 8) + j % 8) % 8 = j := by
        omega
      rw [e1, e2, e3]
      simp
    · have e1 : decide (j < 64) = false := decide_eq_false (by omega)
      have hpow : (2 : Nat) ^ 64 ≤ 2 ^ j := Nat.pow_le_pow_right (by decide) h
      have e2 : u.testBit j = false := Nat.testBit_lt_two_pow (Nat.lt_of_lt_of_le hu hpow)
      rw [e1, e2]
      simp
  refine ⟨inv x hx, SWAPLL_lt x, ?_, ⟨SWAPLL x, SWAPLL_lt x, inv x hx⟩⟩
  intro hxy
  rw [← inv x hx, ← inv y hy, hxy]

/-- The involution on values at `x = 0x0102030405060708` and `y = 0xff`. -/
theorem SWAPLL_involution_witness :
    (0x0102030405060708 : Nat) < 2 ^ 64 ∧ (0xff : Nat) < 2 ^ 64 ∧
    SWAPLL 0xff = 0xff00000000000000 ∧
    SWAPLL (SWAPLL 0x0102030405060708) = 0x0102030405060708 :=
  ⟨by decide, by decide, by decide,
    (SWAPLL_involution 0x0102030405060708 0xff (by decide) (by decide)).1⟩

/-- The expansion of `SWAPLL(ull)` is its first seven operands or-ed with its
last one. -/
theorem SWAPLL_eq_head_or_last (ull : Nat) :
    SWAPLL ull = SWAPLL_head ull ||| SWAPLL_last ull := rfl

/-- C13: the expression `SWAPLL(SWAPLL(x))` of the claim does not give `x`
back. At `x = 0x0102030405060708` the inner expansion has the operands
`0x0007060504030201` and `0x0800000000000000`, whose union is the swapped
value `0x0807060504030201`; the outer masks reach the last operand only, and
the expression evaluates to `0x070607060706070e`, not to `x`. Swapping the
stored swapped value does give `x` back. -/
theorem SWAPLL_SWAPLL_not_identity :
    SWAPLL_head 0x0102030405060708 = 0x0007060504030201 ∧
    SWAPLL_last 0x0102030405060708 = 0x0800000000000000 ∧
    SWAPLL 0x0102030405060708 = 0x0807060504030201 ∧
    SWAPLL_SWAPLL 0x0102030405060708 = 0x070607060706070e ∧
    SWAPLL_SWAPLL 0x0102030405060708 ≠ 0x0102030405060708 ∧
    SWAPLL 0x0807060504030201 = 0x0102030405060708 := by
  decide

end Pcap
